import Mathlib

/-!
Shallow embedding of the inference-session engine of the `poly` repository
(`poly-backend/src/session.rs`: `BackendSession::reminder_prompt`,
`BackendSession::complete_actual`) and of the HNSW-backed memory store
(`poly-backend/src/memory/hora.rs`: `HoraMemory::store`, `HoraMemory::get`).

External collaborators (the `llm` crate's model, tokenizer, UTF-8 token
buffer and inference session, the `poly_bias` biaser, the embedding backend,
the user callback and the async memory store) are represented as oracle
fields of an `Env` record, following the interface contracts of spec §6.
Machine floats (`f32` bias values) are represented as rationals; wall-clock
durations are abstracted to zero (no claim concerns durations); the
unbounded `loop` is run on explicit fuel, with fuel exhaustion reported as a
distinct outcome.
-/

namespace Poly

/-- Rust `llm::InferenceFeedback`. -/
inductive InferenceFeedback
  | cont
  | halt
deriving Repr, DecidableEq

/-- Rust `llm::InferenceStats` (durations abstracted to natural time units). -/
structure InferenceStats where
  feedPromptDuration : Nat
  promptTokens : Nat
  predictDuration : Nat
  predictTokens : Nat
deriving Repr, DecidableEq

/-- Modelled from the spec: `crate::stats::InferenceStatsAdd` is not under
`src/`; spec §4.7 says stats "merge additively", field by field. -/
def InferenceStats.add (a b : InferenceStats) : InferenceStats :=
  ⟨a.feedPromptDuration + b.feedPromptDuration, a.promptTokens + b.promptTokens,
   a.predictDuration + b.predictDuration, a.predictTokens + b.predictTokens⟩

/-- Rust `InferenceStats::default()`. -/
def InferenceStats.zero : InferenceStats := ⟨0, 0, 0, 0⟩

/-- Modelled from the spec: `crate::types::GenerateError` is not under
`src/`; spec §7 enumerates the semantic kinds used here. `custom n` stands
for any other error value carried through unchanged (e.g. from the user
callback or the embedding backend). -/
inductive GenerateError
  | illegalToken
  | memory
  | model
  | custom (n : Nat)
deriving Repr, DecidableEq

/-- Modelled from the spec: `TaskConfig.memorization` (`crate::config` is
not under `src/`): `{retrieve: nonnegative count, store_prompts: bool}`. -/
structure Memorization where
  retrieve : Option Nat
  storePrompts : Bool
deriving Repr, DecidableEq

/-- Modelled from the spec: `crate::config::TaskConfig` is not under
`src/`; spec §3 lists the fields. `pre`/`post` are the source's
prompt-template fields whose names are Lean keywords; `hasBiaser` stands
for `task_config.biaser.is_some()` (the biaser's behaviour itself lives in
`Env.biasFn`). Sampling knobs are omitted: they are only ever handed to the
external sampler, which is an oracle here. -/
structure TaskConfig where
  pre : Option String
  post : Option String
  biasPrompt : Option String
  hasBiaser : Bool
  stopSequences : List String
  privateTokens : Option (List String)
  maxTokens : Option Nat
  memorization : Option Memorization
deriving Repr, DecidableEq

/-- The session's environment: the model, tokenizer, biaser, sampler,
callback and memory collaborators of `BackendSession`, as deterministic
oracles (spec §6 contracts).

* `tok s` — `tokenizer().tokenize(s, false)`, token ids only.
* `tokenPiece id` — `vocabulary.token(id)` decoded text piece.
* `bufComplete` — release policy of the external `TokenUtf8Buffer`: the
  buffered text is emitted as one fragment exactly when this returns true.
* `biasFn hist` — `biaser.bias(vocab, eot)` after `advance`-ing through
  `hist`; used when `task_config.biaser` is configured (state of the
  external `poly_bias` biaser is its advance history).
* `inferTok i` — result of the i-th `infer_next_token` call: `none` is a
  model inference error, `some id` the sampled-and-fed token.
* `warmup` — result of the unbiased `session.infer` warm-up: `.error (e,k)`
  means it failed with `e` after feeding `k` tokens, `.ok ws` that it
  inferred (and fed) the tokens `ws`.
* `cb i s` — the user callback on its i-th invocation with fragment `s`.
* `embedding` — result of `backend.embedding(model, request)`.
* `hasMemory` / `memoryGet k` — `self.memory` presence and
  `memory.get(embedding, k)`.
* `nPast0` — `session.n_past` on entry (KV-cache length = tokens fed). -/
structure Env where
  botTokenId : Option Nat
  eotTokenId : Nat
  tok : String → List Nat
  tokenPiece : Nat → String
  bufComplete : String → Bool
  biasFn : List Nat → List (Nat × Rat)
  inferTok : Nat → Option Nat
  warmup : Except (GenerateError × Nat) (List Nat)
  cb : Nat → String → Except GenerateError InferenceFeedback
  embedding : Except GenerateError Unit
  hasMemory : Bool
  memoryGet : Nat → Except GenerateError (List String)
  debugEnabled : Bool
  nPast0 : Nat

/-- Outcome of `reminder_prompt`: `Result<Option<String>, GenerateError>`
plus a distinct constructor for a Rust panic (`unwrap` of `None`). -/
inductive MemOut
  | ok (r : Option String)
  | err (e : GenerateError)
  | panic
deriving Repr, DecidableEq

/-- Embeds `BackendSession::reminder_prompt` (session.rs lines 50-77). When
memorization is configured with `retrieve = Some k`, `k > 0`: compute the
prompt embedding (`?` propagates), then `self.memory.clone().unwrap()`
(panics when no memory store is attached), then `memory.get(embedding, k)`
(`?` propagates) and join the items with newlines. All other paths return
`Ok(None)`. -/
def reminder_prompt (env : Env) (cfg : TaskConfig) : MemOut :=
  match cfg.memorization with
  | some m =>
    match m.retrieve with
    | some k =>
      if 0 < k then
        match env.embedding with
        | .error e => .err e
        | .ok _ =>
          if env.hasMemory then
            match env.memoryGet k with
            | .error e => .err e
            | .ok items => .ok (some (String.intercalate "\n" items))
          else .panic
      else .ok none
    | none => .ok none
  | none => .ok none

/-- Embeds `beginning_of_sentence` (session.rs line 131):
`self.model.bot_token_id().is_some() && self.session.n_past == 0`. -/
def bosFlag (env : Env) : Bool :=
  env.botTokenId.isSome && env.nPast0 == 0

/-- Embeds `Prompt::Text(s).to_tokens(tokenizer, bos)` of the external `llm`
tokenizer (spec §6): the BOS token id is prepended when requested. -/
def toTokens (env : Env) (s : String) (bos : Bool) : List Nat :=
  (if bos then env.botTokenId.toList else []) ++ env.tok s

/-- Prompt tokens accumulated after the optional reminder fragment
(session.rs lines 136-141); each fragment is tokenized with
`beginning_of_sentence && tokens.is_empty()`. -/
def tokensAfterReminder (env : Env) (rem : Option String) : List Nat :=
  match rem with
  | some r => toTokens env r (bosFlag env)  -- `tokens` is still empty here
  | none => []

/-- Prompt tokens accumulated after the optional `prefix` fragment
(session.rs lines 143-146). -/
def tokensAfterPre (env : Env) (cfg : TaskConfig) (rem : Option String) : List Nat :=
  let t := tokensAfterReminder env rem
  t ++ (match cfg.pre with
        | some p => toTokens env p (bosFlag env && t.isEmpty)
        | none => [])

/-- Embeds `user_tokens` (session.rs line 149). -/
def userTokens (env : Env) (cfg : TaskConfig) (rem : Option String) (request : String) : List Nat :=
  toTokens env request (bosFlag env && (tokensAfterPre env cfg rem).isEmpty)

/-- Prompt tokens after appending the user fragment (session.rs line 166). -/
def tokensAfterUser (env : Env) (cfg : TaskConfig) (rem : Option String) (request : String) : List Nat :=
  tokensAfterPre env cfg rem ++ userTokens env cfg rem request

/-- The fully assembled prompt: reminder, `prefix`, user prompt, `postfix`
(session.rs lines 136-171). -/
def assembleTokens (env : Env) (cfg : TaskConfig) (rem : Option String) (request : String) : List Nat :=
  let t := tokensAfterUser env cfg rem request
  t ++ (match cfg.post with
        | some p => toTokens env p (bosFlag env && t.isEmpty)
        | none => [])

/-- Embeds `private_tokens` (session.rs line 152): `unwrap_or(vec![])`. -/
def privateTokenStrings (cfg : TaskConfig) : List String :=
  cfg.privateTokens.getD []

/-- Embeds `private_token_ids` (session.rs lines 153-162): first id of each
configured private token's tokenization (the length-one check that guards
this with a panic is performed by `complete_actual`). -/
def privateTokenIds (env : Env) (cfg : TaskConfig) : List Nat :=
  (privateTokenStrings cfg).map (fun s => (env.tok s).headD 0)

/-- Modelled from the spec: `crate::sequence::{Sequence, SequenceSet}` is
not under `src/`. Spec §3/§4.5: per target keep the matched-prefix length;
on each character either extend it, or reset (restarting at 1 when the
character opens a fresh match); report true when some target is fully
matched. One step of one target on one character. -/
def seqAdvanceChar (t : String × Nat) (c : Char) : (String × Nat) × Bool :=
  if t.1.toList.get? t.2 = some c then
    ((t.1, t.2 + 1), t.2 + 1 == t.1.length)
  else if t.1.toList.get? 0 = some c then
    ((t.1, 1), 1 == t.1.length)
  else ((t.1, 0), false)

/-- Modelled from the spec: `SequenceSet::advance(fragment)` over every
character of the fragment and every target; returns the match flag and the
updated states (`none` = no stop sequences are being tracked). -/
def stopAdvance : Option (List (String × Nat)) → String → Bool × Option (List (String × Nat))
  | none, _ => (false, none)
  | some sts, frag =>
    let r := frag.toList.foldl
      (fun (acc : List (String × Nat) × Bool) c =>
        let rs := acc.1.map (fun t => seqAdvanceChar t c)
        (rs.map (fun p => p.1), acc.2 || rs.any (fun p => p.2)))
      (sts, false)
    (r.2, some r.1)

/-- Embeds the `stop_sequences` initialization (session.rs lines 263-275): tracking is
disabled when no stop sequences are configured or when a biaser is
configured (it then "decides when we stop"). -/
def stopInit (cfg : TaskConfig) : Option (List (String × Nat)) :=
  if cfg.stopSequences.isEmpty then none
  else if cfg.hasBiaser then none
  else some (cfg.stopSequences.map (fun s => (s, 0)))

/-- Mutable state of the generation loop (session.rs lines 257-377), plus
instrumentation: `hist` is the advance history of the biaser, `transcript`
the `tokens` vector, `delivered` the fragments passed to the user callback,
`forcedFed`/`sampled` count forced-token feeds and sampler draws. -/
structure LoopState where
  nPast : Nat
  stats : InferenceStats
  tokensGenerated : Nat
  hist : List Nat
  buf : String
  stopStates : Option (List (String × Nat))
  transcript : List Nat
  inferCalls : Nat
  cbCalls : Nat
  delivered : List String
  forcedFed : Nat
  sampled : Nat
deriving Repr, DecidableEq

/-- Embeds `biaser.bias(vocabulary, eot_token)` followed by the private-token
`retain` (session.rs lines 278-281); the null biaser of an unbiased task
returns an empty list. -/
def filteredBias (env : Env) (cfg : TaskConfig) (pids : List Nat) (hist : List Nat) :
    List (Nat × Rat) :=
  (if cfg.hasBiaser then env.biasFn hist else []).filter (fun t => decide (t.1 ∉ pids))

/-- The forced-token test (session.rs line 284):
`biaser_bias.len() == 1 && biaser_bias[0].1 > 0.0`. -/
def forcedToken (fb : List (Nat × Rat)) : Option Nat :=
  match fb with
  | [t] => if 0 < t.2 then some t.1 else none
  | _ => none

/-- Outcome of one loop iteration: continue, `break`, or a propagated
callback error. -/
inductive StepOut
  | next (st : LoopState)
  | brk (st : LoopState)
  | fail (e : GenerateError) (st : LoopState)
deriving Repr, DecidableEq

/-- The state carried by any `StepOut`. -/
def stateOf : StepOut → LoopState
  | .next st => st
  | .brk st => st
  | .fail _ st => st

/-- Token acquisition (session.rs lines 284-331): forced token (fed via
`feed_prompt` unless it is EOT) or a sampler draw via `infer_next_token`
(`none` = the acquisition `break`s on a model inference error). -/
def acquire (env : Env) (cfg : TaskConfig) (pids : List Nat) (st : LoopState) :
    Option (Nat × LoopState) :=
  match forcedToken (filteredBias env cfg pids st.hist) with
  | some t =>
    if t = env.eotTokenId then some (t, st)
    else
      some (t, { st with nPast := st.nPast + 1,
                         stats := st.stats.add ⟨0, 1, 0, 0⟩,
                         forcedFed := st.forcedFed + 1 })
  | none =>
    match env.inferTok st.inferCalls with
    | none => none
    | some out =>
      some (out, { st with nPast := st.nPast + 1,
                           stats := st.stats.add ⟨0, 0, 0, 1⟩,
                           sampled := st.sampled + 1,
                           inferCalls := st.inferCalls + 1 })

/-- The `max_tokens` exit check at the bottom of the loop (session.rs lines
369-376): only when no biaser is configured. -/
def maxCheck (cfg : TaskConfig) (st : LoopState) : StepOut :=
  if cfg.hasBiaser then .next st
  else
    match cfg.maxTokens with
    | some m => if m ≤ st.tokensGenerated then .brk st else .next st
    | none => .next st

/-- The tail of one loop iteration after the output token is known
(session.rs lines 333-376): count it, transcript it under debug tracing,
exit on EOT, advance the biaser, push the token's text through the UTF-8
buffer and, for a released fragment, run the stop-sequence check, the
private-token suppression and the user callback, then the `max_tokens`
check. -/
def stepTail (env : Env) (cfg : TaskConfig) (pts : List String) (st : LoopState) (out : Nat) :
    StepOut :=
  let st2 : LoopState :=
    { st with tokensGenerated := st.tokensGenerated + 1,
              transcript := st.transcript ++ (if env.debugEnabled then [out] else []) }
  if out = env.eotTokenId then .brk st2
  else
    let st3 : LoopState := { st2 with hist := st2.hist ++ [out] }
    let buf1 := st3.buf ++ env.tokenPiece out
    if env.bufComplete buf1 then
      let output := buf1
      let adv := stopAdvance st3.stopStates output
      let st5 : LoopState := { st3 with buf := "", stopStates := adv.2 }
      if adv.1 then .brk st5
      else if output ∈ pts then maxCheck cfg st5
      else
        let st6 : LoopState :=
          { st5 with cbCalls := st5.cbCalls + 1, delivered := st5.delivered ++ [output] }
        match env.cb st5.cbCalls output with
        | .error e => .fail e st6
        | .ok .halt => .brk st6
        | .ok .cont => maxCheck cfg st6
    else
      maxCheck cfg { st3 with buf := buf1 }

/-- One full iteration of the generation loop (session.rs lines 277-377). -/
def loopStep (env : Env) (cfg : TaskConfig) (pids : List Nat) (pts : List String)
    (st : LoopState) : StepOut :=
  match acquire env cfg pids st with
  | none => .brk st
  | some (out, st1) => stepTail env cfg pts st1 out

/-- Result of running the loop to termination (or out of fuel). -/
inductive LoopOut
  | ok (st : LoopState)
  | err (e : GenerateError) (st : LoopState)
  | fuelOut (st : LoopState)
deriving Repr, DecidableEq

/-- The state carried by any `LoopOut`. -/
def stateOfLoop : LoopOut → LoopState
  | .ok st => st
  | .err _ st => st
  | .fuelOut st => st

/-- The generation loop, on fuel. -/
def loopRun (env : Env) (cfg : TaskConfig) (pids : List Nat) (pts : List String) :
    Nat → LoopState → LoopOut
  | 0, st => .fuelOut st
  | n + 1, st =>
    match loopStep env cfg pids pts st with
    | .next st' => loopRun env cfg pids pts n st'
    | .brk st' => .ok st'
    | .fail e st' => .err e st'

/-- The value of a successful `complete_actual`: the returned
`InferenceStats` plus instrumentation — final KV-cache length, the
fragments delivered to the user callback, and the per-category token
counts (`assembledLen` = assembled prompt, `warmupLen` = tokens inferred by
the unbiased warm-up, `biasTokLen` = bias-prompt tokens, `forcedFed` =
forced tokens fed, `sampled` = loop sampler draws). -/
structure CompletionResult where
  stats : InferenceStats
  nPastFinal : Nat
  delivered : List String
  assembledLen : Nat
  warmupLen : Nat
  biasTokLen : Nat
  forcedFed : Nat
  sampled : Nat
  transcript : List Nat
deriving Repr, DecidableEq

/-- Outcome of `complete_actual`. `err e n d` records the error, the
KV-cache length when it was raised and the fragments delivered to the user
callback before it; `panic` is a Rust panic; `fuelOut` is fuel
exhaustion of the embedding (the source loop is unbounded). -/
inductive RunOut
  | ok (r : CompletionResult)
  | err (e : GenerateError) (nPast : Nat) (delivered : List String)
  | panic
  | fuelOut
deriving Repr, DecidableEq

/-- The generation loop's initial state (session.rs lines 257-275). -/
def mkInitState (cfg : TaskConfig) (nPast : Nat) (stats : InferenceStats)
    (transcript : List Nat) : LoopState :=
  { nPast := nPast, stats := stats, tokensGenerated := 0, hist := [], buf := "",
    stopStates := stopInit cfg, transcript := transcript, inferCalls := 0, cbCalls := 0,
    delivered := [], forcedFed := 0, sampled := 0 }

/-- Package the loop's result as the session's result. -/
def finishLoop (aLen wLen bLen : Nat) : LoopOut → RunOut
  | .ok st =>
    .ok { stats := st.stats, nPastFinal := st.nPast, delivered := st.delivered,
          assembledLen := aLen, warmupLen := wLen, biasTokLen := bLen,
          forcedFed := st.forcedFed, sampled := st.sampled, transcript := st.transcript }
  | .err e st => .err e st.nPast st.delivered
  | .fuelOut _ => .fuelOut

/-- Embeds `BackendSession::complete_actual` (session.rs lines 123-385).
Phases: `reminder_prompt`; prompt assembly with the private-token panic and
`IllegalToken` checks; the initial `feed_prompt` (stats gain the assembled
length as prompt tokens); when a `bias_prompt` is configured, the unbiased
warm-up `session.infer` (its tokens are fed and counted as predicted), the
debug-only transcript extension, then the bias-prompt `feed_prompt` whose
stats increment is — as in the source — `tokens.len()`, the current
transcript length, not the bias prompt's token count; finally the
generation loop. -/
def complete_actual (env : Env) (cfg : TaskConfig) (request : String) (fuel : Nat) : RunOut :=
  match reminder_prompt env cfg with
  | .panic => .panic
  | .err e => .err e env.nPast0 []
  | .ok reminder =>
    if (privateTokenStrings cfg).any (fun s => (env.tok s).length != 1) then .panic
    else
      let pids := privateTokenIds env cfg
      if !pids.isEmpty && (userTokens env cfg reminder request).any (fun t => decide (t ∈ pids)) then
        .err .illegalToken env.nPast0 []
      else
        let tokens := assembleTokens env cfg reminder request
        let pts := privateTokenStrings cfg
        match cfg.biasPrompt with
        | none =>
          finishLoop tokens.length 0 0
            (loopRun env cfg pids pts fuel
              (mkInitState cfg (env.nPast0 + tokens.length) ⟨0, tokens.length, 0, 0⟩ tokens))
        | some bp =>
          match env.warmup with
          | .error ek => .err ek.1 (env.nPast0 + tokens.length + ek.2) []
          | .ok ws =>
            let bpToks := env.tok bp
            let transcript2 :=
              (tokens ++ (if env.debugEnabled then ws else [])) ++
                (if env.debugEnabled then bpToks else [])
            let stats3 :=
              (InferenceStats.add ⟨0, tokens.length, 0, 0⟩ ⟨0, 0, 0, ws.length⟩).add
                ⟨0, transcript2.length, 0, 0⟩
            finishLoop tokens.length ws.length bpToks.length
              (loopRun env cfg pids pts fuel
                (mkInitState cfg (env.nPast0 + tokens.length + ws.length + bpToks.length)
                  stats3 transcript2))

/-- The fragments a run delivered to the user callback. -/
def deliveredOf : RunOut → List String
  | .ok r => r.delivered
  | .err _ _ d => d
  | .panic => []
  | .fuelOut => []

/-! ## The HNSW memory store (`poly-backend/src/memory/hora.rs`) -/

/-- Modelled from the spec: `crate::memory::MemoryError` is not under
`src/`; spec §7 names `DimensionalityMismatch` as its construction-time
kind. -/
inductive MemoryError
  | dimensionalityMismatch
deriving Repr, DecidableEq

/-- Outcome of a `HoraMemory` operation: `Result<α, MemoryError>` plus a
distinct constructor for a Rust panic (`assert_eq!`). -/
inductive HoraOut (α : Type)
  | ok (a : α)
  | err (e : MemoryError)
  | panic
deriving Repr, DecidableEq

/-- The external `hora` HNSW index, abstracted to its dimension and stored
`(embedding, payload)` pairs; `f32` coordinates become rationals. -/
structure HNSWIndexM where
  dimension : Nat
  items : List (List Rat × String)
deriving Repr, DecidableEq

/-- Embeds `HoraMemory` (the persistence path is opaque to the core and omitted). -/
structure HoraMemory where
  index : HNSWIndexM
deriving Repr, DecidableEq

/-- Squared Euclidean distance of two embeddings. -/
def sqDist (a b : List Rat) : Rat :=
  (List.zip a b).foldl (fun acc p => acc + (p.1 - p.2) ^ 2) 0

/-- Insertion into a distance-sorted list. -/
def insertByDist (x : Rat × String) : List (Rat × String) → List (Rat × String)
  | [] => [x]
  | y :: ys => if x.1 ≤ y.1 then x :: y :: ys else y :: insertByDist x ys

/-- Distance sort (ascending), realising the ANN contract of spec §6:
`get` returns the k nearest items in ascending distance. -/
def sortByDist : List (Rat × String) → List (Rat × String)
  | [] => []
  | x :: xs => insertByDist x (sortByDist xs)

/-- Embeds `HoraMemory::new` (hora.rs lines 18-33): `existing` stands for an index
loaded from disk when the path exists; a fresh index has the requested
dimension. The dimension check returns `Err(DimensionalityMismatch)`. -/
def HoraMemory.new (existing : Option HNSWIndexM) (dims : Nat) : HoraOut HoraMemory :=
  let index := existing.getD { dimension := dims, items := [] }
  if index.dimension ≠ dims then .err .dimensionalityMismatch
  else .ok { index := index }

/-- Embeds `HoraMemory::store` (hora.rs lines 44-52): `assert_eq!(embedding.len(),
index.dimension())` panics on mismatch; otherwise the pair is added (the
index build and dump of the external crate are side effects on disk). -/
def HoraMemory.store (m : HoraMemory) (text : String) (embedding : List Rat) :
    HoraOut HoraMemory :=
  if embedding.length = m.index.dimension then
    .ok { index := { m.index with items := m.index.items ++ [(embedding, text)] } }
  else .panic

/-- Embeds `HoraMemory::get` (hora.rs lines 54-58): `assert_eq!` panics on a
dimension mismatch; otherwise the `top_n` nearest payloads. -/
def HoraMemory.get (m : HoraMemory) (embedding : List Rat) (top_n : Nat) :
    HoraOut (List String) :=
  if embedding.length = m.index.dimension then
    .ok (((sortByDist (m.index.items.map (fun it => (sqDist it.1 embedding, it.2)))).take
      top_n).map (fun p => p.2))
  else .panic

/-! ## Concrete environments used to instantiate the theorems -/

/-- A minimal session environment: no BOS token, EOT id 9, every text
tokenizes to `[1, 2]`, every token decodes to `"a"`, the UTF-8 buffer
releases every push, the sampler always yields token 5, the callback always
continues, no memory store, `n_past = 0`. -/
def baseEnv : Env :=
  { botTokenId := none, eotTokenId := 9,
    tok := fun _ => [1, 2],
    tokenPiece := fun _ => "a",
    bufComplete := fun _ => true,
    biasFn := fun _ => [],
    inferTok := fun _ => some 5,
    warmup := .ok [],
    cb := fun _ _ => .ok .cont,
    embedding := .ok (),
    hasMemory := false,
    memoryGet := fun _ => .ok [],
    debugEnabled := false,
    nPast0 := 0 }

/-- A bare task: no template fragments, no biaser, no limits, no memory. -/
def baseCfg : TaskConfig :=
  { pre := none, post := none, biasPrompt := none, hasBiaser := false,
    stopSequences := [], privateTokens := none, maxTokens := none, memorization := none }

/-- The bare task with `max_tokens = 0`. -/
def cfgMax0 : TaskConfig := { baseCfg with maxTokens := some 0 }

/-- Environment where the bias prompt `"bp"` tokenizes to three tokens while
everything else tokenizes to two, and the sampler immediately yields EOT. -/
def envBiasStats : Env :=
  { baseEnv with tok := fun s => if s = "bp" then [7, 7, 7] else [1, 2],
                 inferTok := fun _ => some 9 }

/-- The bare task with `bias_prompt = "bp"`. -/
def cfgBiasStats : TaskConfig := { baseCfg with biasPrompt := some "bp" }

/-- The bare task with `memorization.retrieve = 1` (and no memory store in
`baseEnv`). -/
def cfgRecall1 : TaskConfig :=
  { baseCfg with memorization := some { retrieve := some 1, storePrompts := false } }

/-- Environment where `"secret"` tokenizes to the single id 7 and every
other text to `[7, 2]` — so the user prompt contains the private id. -/
def envSecret : Env :=
  { baseEnv with tok := fun s => if s = "secret" then [7] else [7, 2] }

/-- The bare task with `private_tokens = ["secret"]`. -/
def cfgSecret : TaskConfig := { baseCfg with privateTokens := some ["secret"] }

/-- Environment with a two-token unbiased warm-up and a sampler that
immediately yields EOT. -/
def envWarm : Env := { baseEnv with warmup := .ok [5, 5], inferTok := fun _ => some 9 }

/-- The bare task with `bias_prompt = "b"`. -/
def cfgWarm : TaskConfig := { baseCfg with biasPrompt := some "b" }

/-- Environment where the private token `"p"` tokenizes to the single id 3
and other text to `[1, 2]`. -/
def envPriv : Env := { baseEnv with tok := fun s => if s = "p" then [3] else [1, 2] }

/-- The bare task with `max_tokens = 0` and `private_tokens = ["p"]`. -/
def cfgPrivMax0 : TaskConfig :=
  { baseCfg with maxTokens := some 0, privateTokens := some ["p"] }

/-- Environment whose biaser admits exactly token 4, with bias +1. -/
def envForced : Env := { baseEnv with biasFn := fun _ => [(4, 1)] }

/-- Environment whose biaser forces the EOT token 9. -/
def envForcedEot : Env := { baseEnv with biasFn := fun _ => [(9, 1)] }

/-- The bare task with a configured biaser. -/
def cfgBiased : TaskConfig := { baseCfg with hasBiaser := true }

/-- Environment whose model errors on every `infer_next_token`. -/
def envInferErr : Env := { baseEnv with inferTok := fun _ => none }

/-- An empty loop state for a task, at KV position 0 with zeroed stats. -/
def stEmpty (cfg : TaskConfig) : LoopState := mkInitState cfg 0 .zero []

/-! ## Specification-shaped recall (for the amended claim C7) -/

/-- The retrieve count of a task, 0 when unset. -/
def retrieveCount (cfg : TaskConfig) : Nat :=
  match cfg.memorization with
  | some m => m.retrieve.getD 0
  | none => 0

/-- The amended recall contract, stated from its words: `None` whenever the
retrieve count is zero (memorization absent, `retrieve` unset, or `k = 0`);
for `k > 0` first the embedding is computed (errors propagate), then with a
configured store the top-`k` items are returned joined with newlines (store
errors propagate), and with no configured store the call panics instead of
returning `None`. -/
def reminderSpec (env : Env) (cfg : TaskConfig) : MemOut :=
  if retrieveCount cfg = 0 then .ok none
  else
    match env.embedding with
    | .error e => .err e
    | .ok _ =>
      if env.hasMemory then
        match env.memoryGet (retrieveCount cfg) with
        | .error e => .err e
        | .ok items => .ok (some (String.intercalate "\n" items))
      else .panic

/-! ## Helper lemmas about the generation loop -/

theorem stateOf_maxCheck (cfg : TaskConfig) (st : LoopState) :
    stateOf (maxCheck cfg st) = st := by
  unfold maxCheck
  split
  · rfl
  · split
    · split <;> rfl
    · rfl

theorem stepTail_spec (env : Env) (cfg : TaskConfig) (pts : List String) (st : LoopState)
    (out : Nat) :
    (stateOf (stepTail env cfg pts st out)).nPast = st.nPast ∧
    (stateOf (stepTail env cfg pts st out)).stats = st.stats ∧
    (stateOf (stepTail env cfg pts st out)).forcedFed = st.forcedFed ∧
    (stateOf (stepTail env cfg pts st out)).sampled = st.sampled ∧
    (stateOf (stepTail env cfg pts st out)).inferCalls = st.inferCalls ∧
    (stateOf (stepTail env cfg pts st out)).tokensGenerated = st.tokensGenerated + 1 ∧
    (stateOf (stepTail env cfg pts st out)).delivered.length ≤ st.delivered.length + 1 ∧
    (out ≠ env.eotTokenId → (stateOf (stepTail env cfg pts st out)).hist = st.hist ++ [out]) := by
  simp only [stepTail]
  by_cases h1 : out = env.eotTokenId
  · simp [h1, stateOf]
  · rw [if_neg h1]
    by_cases h2 : env.bufComplete (st.buf ++ env.tokenPiece out) = true
    · rw [if_pos h2]
      by_cases h3 : (stopAdvance st.stopStates (st.buf ++ env.tokenPiece out)).1 = true
      · rw [if_pos h3]
        simp [stateOf, h1]
      · rw [if_neg h3]
        by_cases h4 : (st.buf ++ env.tokenPiece out) ∈ pts
        · rw [if_pos h4]
          simp only [stateOf_maxCheck]
          simp [h1]
        · rw [if_neg h4]
          rcases hcb : env.cb st.cbCalls (st.buf ++ env.tokenPiece out) with e | fb
          · simp only [hcb]
            simp [stateOf, h1]
          · rcases fb
            · simp only [hcb, stateOf_maxCheck]
              simp [h1]
            · simp only [hcb]
              simp [stateOf, h1]
    · rw [if_neg h2]
      simp only [stateOf_maxCheck]
      simp [h1]

theorem stepTail_delivered (env : Env) (cfg : TaskConfig) (pts : List String) (st : LoopState)
    (out : Nat) :
    ∀ x ∈ (stateOf (stepTail env cfg pts st out)).delivered, x ∈ st.delivered ∨ x ∉ pts := by
  have hgrow : ∀ x ∈ st.delivered ++ [st.buf ++ env.tokenPiece out],
      (st.buf ++ env.tokenPiece out) ∉ pts → (x ∈ st.delivered ∨ x ∉ pts) := by
    intro x hx hout
    rcases List.mem_append.mp hx with hx | hx
    · exact Or.inl hx
    · have hxo : x = st.buf ++ env.tokenPiece out := List.mem_singleton.mp hx
      subst hxo
      exact Or.inr hout
  simp only [stepTail]
  by_cases h1 : out = env.eotTokenId
  · simp only [if_pos h1, stateOf]
    exact fun x hx => Or.inl hx
  · rw [if_neg h1]
    by_cases h2 : env.bufComplete (st.buf ++ env.tokenPiece out) = true
    · rw [if_pos h2]
      by_cases h3 : (stopAdvance st.stopStates (st.buf ++ env.tokenPiece out)).1 = true
      · rw [if_pos h3]
        simp only [stateOf]
        exact fun x hx => Or.inl hx
      · rw [if_neg h3]
        by_cases h4 : (st.buf ++ env.tokenPiece out) ∈ pts
        · rw [if_pos h4]
          simp only [stateOf_maxCheck]
          exact fun x hx => Or.inl hx
        · rw [if_neg h4]
          rcases hcb : env.cb st.cbCalls (st.buf ++ env.tokenPiece out) with e | fb
          · simp only [hcb, stateOf]
            exact fun x hx => hgrow x hx h4
          · rcases fb
            · simp only [hcb, stateOf_maxCheck]
              exact fun x hx => hgrow x hx h4
            · simp only [hcb, stateOf]
              exact fun x hx => hgrow x hx h4
    · rw [if_neg h2]
      simp only [stateOf_maxCheck]
      exact fun x hx => Or.inl hx

theorem acquire_cases (env : Env) (cfg : TaskConfig) (pids : List Nat) (st : LoopState)
    (out : Nat) (st1 : LoopState)
    (h : acquire env cfg pids st = some (out, st1)) :
    st1 = st ∨
    st1 = { st with nPast := st.nPast + 1, stats := st.stats.add ⟨0, 1, 0, 0⟩,
                    forcedFed := st.forcedFed + 1 } ∨
    st1 = { st with nPast := st.nPast + 1, stats := st.stats.add ⟨0, 0, 0, 1⟩,
                    sampled := st.sampled + 1, inferCalls := st.inferCalls + 1 } := by
  unfold acquire at h
  split at h
  · split at h
    · left
      simp only [Option.some.injEq, Prod.mk.injEq] at h
      exact h.2.symm
    · right; left
      simp only [Option.some.injEq, Prod.mk.injEq] at h
      exact h.2.symm
  · split at h
    · exact absurd h (by simp)
    · right; right
      simp only [Option.some.injEq, Prod.mk.injEq] at h
      exact h.2.symm

theorem loopRun_inv (env : Env) (cfg : TaskConfig) (pids : List Nat) (pts : List String)
    (P : LoopState → Prop)
    (hP : ∀ st, P st → P (stateOf (loopStep env cfg pids pts st))) :
    ∀ fuel st, P st → P (stateOfLoop (loopRun env cfg pids pts fuel st)) := by
  intro fuel
  induction fuel with
  | zero => intro st h; exact h
  | succ n ih =>
    intro st h
    unfold loopRun
    cases hs : loopStep env cfg pids pts st with
    | next st' =>
      apply ih
      have h2 := hP st h
      rw [hs] at h2
      simpa [stateOf] using h2
    | brk st' =>
      have h2 := hP st h
      rw [hs] at h2
      simpa [stateOf, stateOfLoop] using h2
    | fail e st' =>
      have h2 := hP st h
      rw [hs] at h2
      simpa [stateOf, stateOfLoop] using h2

theorem complete_actual_cases (env : Env) (cfg : TaskConfig) (request : String) (fuel : Nat) :
    complete_actual env cfg request fuel = RunOut.panic ∨
    (∃ e n, complete_actual env cfg request fuel = RunOut.err e n []) ∨
    (∃ aLen wLen bLen st0,
      st0.forcedFed = 0 ∧ st0.sampled = 0 ∧ st0.delivered = [] ∧ st0.tokensGenerated = 0 ∧
      st0.nPast = env.nPast0 + aLen + wLen + bLen ∧
      st0.stats.predictTokens = wLen ∧
      (cfg.biasPrompt = none → wLen = 0 ∧ bLen = 0) ∧
      complete_actual env cfg request fuel =
        finishLoop aLen wLen bLen
          (loopRun env cfg (privateTokenIds env cfg) (privateTokenStrings cfg) fuel st0)) := by
  unfold complete_actual
  cases hr : reminder_prompt env cfg with
  | panic => left; rfl
  | err e => right; left; exact ⟨e, env.nPast0, rfl⟩
  | ok reminder =>
    dsimp only
    by_cases hpan : ((privateTokenStrings cfg).any (fun s => (env.tok s).length != 1)) = true
    · rw [if_pos hpan]
      left; rfl
    · rw [if_neg hpan]
      by_cases hill : (!(privateTokenIds env cfg).isEmpty &&
          (userTokens env cfg reminder request).any
            (fun t => decide (t ∈ privateTokenIds env cfg))) = true
      · rw [if_pos hill]
        right; left; exact ⟨.illegalToken, env.nPast0, rfl⟩
      · rw [if_neg hill]
        cases hbp : cfg.biasPrompt with
        | none =>
          right; right
          refine ⟨(assembleTokens env cfg reminder request).length, 0, 0,
            mkInitState cfg (env.nPast0 + (assembleTokens env cfg reminder request).length)
              ⟨0, (assembleTokens env cfg reminder request).length, 0, 0⟩
              (assembleTokens env cfg reminder request),
            rfl, rfl, rfl, rfl, ?_, rfl, fun _ => ⟨rfl, rfl⟩, rfl⟩
          simp [mkInitState]
        | some bp =>
          cases hw : env.warmup with
          | error ek =>
            right; left
            exact ⟨ek.1, env.nPast0 + (assembleTokens env cfg reminder request).length + ek.2, rfl⟩
          | ok ws =>
            right; right
            refine ⟨(assembleTokens env cfg reminder request).length, ws.length,
              (env.tok bp).length,
              mkInitState cfg
                (env.nPast0 + (assembleTokens env cfg reminder request).length + ws.length +
                  (env.tok bp).length)
                ((InferenceStats.add ⟨0, (assembleTokens env cfg reminder request).length, 0, 0⟩
                    ⟨0, 0, 0, ws.length⟩).add
                  ⟨0, ((assembleTokens env cfg reminder request ++
                      (if env.debugEnabled then ws else [])) ++
                    (if env.debugEnabled then env.tok bp else [])).length, 0, 0⟩)
                ((assembleTokens env cfg reminder request ++
                    (if env.debugEnabled then ws else [])) ++
                  (if env.debugEnabled then env.tok bp else [])),
              rfl, rfl, rfl, rfl, rfl, ?_, ?_, rfl⟩
            · simp [mkInitState, InferenceStats.add]
            · intro h
              exact absurd h (by simp)

/-! ## Claim theorems -/

/-- C9: in `complete_actual` the BOS marker is requested exactly when the
model defines a beginning-of-text token and the session's prior-token count
is zero, and in that case the assembled prompt is the BOS token followed by
the plain (BOS-less) tokenizations of reminder, prefix, user prompt and
postfix in order — so the BOS token sits at the head of the first fragment
that contributes tokens, and every later fragment is tokenized without
BOS. -/
theorem bos_first_fragment (env : Env) (cfg : TaskConfig) (rem : Option String)
    (request : String) :
    assembleTokens env cfg rem request =
      (if env.botTokenId.isSome ∧ env.nPast0 = 0 then env.botTokenId.toList else []) ++
        ((rem.map env.tok).getD [] ++ ((cfg.pre.map env.tok).getD [] ++
          (env.tok request ++ (cfg.post.map env.tok).getD []))) := by
  rcases hb : env.botTokenId with _ | b <;>
    rcases hn : env.nPast0 with _ | n <;>
      cases rem <;> rcases hpre : cfg.pre with _ | p <;> rcases hpost : cfg.post with _ | q <;>
        simp [assembleTokens, tokensAfterUser, tokensAfterPre, tokensAfterReminder, userTokens,
          toTokens, bosFlag, hb, hn, hpre, hpost, List.append_assoc]

/-- C7 counterexample: with `memorization.retrieve = 1` configured but no
memory store attached to the session, `reminder_prompt` does not return
`Ok(None)` — it panics on `self.memory.clone().unwrap()`. -/
theorem recall_no_store_panics :
    reminder_prompt baseEnv cfgRecall1 = MemOut.panic ∧
    reminder_prompt baseEnv cfgRecall1 ≠ MemOut.ok none := by
  exact ⟨by decide, by decide⟩

/-- C7 (amended): the memory recall step returns `None` exactly when the
effective retrieve count is zero (memorization absent, `retrieve` unset, or
`k = 0`); when `k > 0` the embedding is computed first (errors propagate),
then with a configured store the top-`k` recalled items are returned joined
with newline separators (store errors propagate), and with no configured
store the call panics rather than returning `None`. -/
theorem reminder_prompt_spec (env : Env) (cfg : TaskConfig) :
    reminder_prompt env cfg = reminderSpec env cfg := by
  unfold reminder_prompt reminderSpec retrieveCount
  rcases hm : cfg.memorization with _ | m
  · simp [hm]
  · rcases hr : m.retrieve with _ | k
    · simp [hm, hr]
    · rcases k with _ | k'
      · simp [hm, hr]
      · simp [hm, hr]

/-- C10: a `store` or `get` on a `HoraMemory` whose embedding length differs
from the index dimension panics (`assert_eq!`) — the `Result` error path is
not taken for a query-dimension mismatch after construction. -/
theorem hora_dimension_mismatch_panics (m : HoraMemory) (text : String)
    (embedding : List Rat) (top_n : Nat)
    (h : embedding.length ≠ m.index.dimension) :
    m.store text embedding = HoraOut.panic ∧ m.get embedding top_n = HoraOut.panic := by
  unfold HoraMemory.store HoraMemory.get
  rw [if_neg h, if_neg h]
  exact ⟨rfl, rfl⟩

/-- Witness for C10: a 2-vector against a 3-dimensional index. -/
theorem hora_dimension_mismatch_panics_witness :
    ([(1 : Rat), 2].length ≠ (HoraMemory.mk ⟨3, []⟩).index.dimension) ∧
    ((HoraMemory.mk ⟨3, []⟩).store "t" [1, 2] = HoraOut.panic ∧
      (HoraMemory.mk ⟨3, []⟩).get [1, 2] 1 = HoraOut.panic) :=
  ⟨by decide, hora_dimension_mismatch_panics (HoraMemory.mk ⟨3, []⟩) "t" [1, 2] 1 (by decide)⟩

/-- C4: when the configured private tokens each tokenize to one id, at least
one private token is configured, and the user prompt's tokenization contains
a private id, `complete_actual` fails with `IllegalToken`; the recorded
KV-cache length at the error is the entry value `n_past0` — no tokens were
fed — and no fragment was delivered. -/
theorem illegal_token_rejects_before_feed (env : Env) (cfg : TaskConfig) (request : String)
    (fuel : Nat) (rem : Option String)
    (hrem : reminder_prompt env cfg = MemOut.ok rem)
    (hlen : ∀ s ∈ privateTokenStrings cfg, (env.tok s).length = 1)
    (hne : privateTokenStrings cfg ≠ [])
    (hhit : (userTokens env cfg rem request).any
      (fun t => decide (t ∈ privateTokenIds env cfg)) = true) :
    complete_actual env cfg request fuel = RunOut.err .illegalToken env.nPast0 [] := by
  unfold complete_actual
  rw [hrem]
  dsimp only
  have hpan : ((privateTokenStrings cfg).any (fun s => (env.tok s).length != 1)) = false := by
    rw [List.any_eq_false]
    intro s hs
    simp [hlen s hs]
  have hne' : (privateTokenIds env cfg).isEmpty = false := by
    rcases hp : privateTokenStrings cfg with _ | ⟨a, l⟩
    · exact absurd hp hne
    · simp [privateTokenIds, hp]
  simp [hpan, hne', hhit]

/-- Witness for C4: the prompt `"hi"` tokenizes to `[7, 2]` and the private
token `"secret"` to the single id 7. -/
theorem illegal_token_rejects_before_feed_witness :
    reminder_prompt envSecret cfgSecret = MemOut.ok none ∧
    (∀ s ∈ privateTokenStrings cfgSecret, (envSecret.tok s).length = 1) ∧
    privateTokenStrings cfgSecret ≠ [] ∧
    ((userTokens envSecret cfgSecret none "hi").any
      (fun t => decide (t ∈ privateTokenIds envSecret cfgSecret))) = true ∧
    complete_actual envSecret cfgSecret "hi" 10 =
      RunOut.err .illegalToken envSecret.nPast0 [] :=
  ⟨by decide, by decide, by decide, by decide,
    illegal_token_rejects_before_feed envSecret cfgSecret "hi" 10 none (by decide) (by decide)
      (by decide) (by decide)⟩

/-- C6: when no token is forced and `infer_next_token` returns an error, the
generation loop exits at once with `Ok` and the state (in particular the
stats) gathered so far, without propagating the error. -/
theorem infer_error_clean_exit (env : Env) (cfg : TaskConfig) (pids : List Nat)
    (pts : List String) (st : LoopState) (fuel : Nat)
    (hb : forcedToken (filteredBias env cfg pids st.hist) = none)
    (he : env.inferTok st.inferCalls = none) :
    loopRun env cfg pids pts (fuel + 1) st = LoopOut.ok st := by
  have ha : acquire env cfg pids st = none := by
    unfold acquire
    rw [hb]
    dsimp only
    rw [he]
  unfold loopRun loopStep
  rw [ha]

/-- Witness for C6: a model erroring on its first inference. -/
theorem infer_error_clean_exit_witness :
    forcedToken (filteredBias envInferErr baseCfg [] (stEmpty baseCfg).hist) = none ∧
    envInferErr.inferTok (stEmpty baseCfg).inferCalls = none ∧
    loopRun envInferErr baseCfg [] [] 1 (stEmpty baseCfg) = LoopOut.ok (stEmpty baseCfg) :=
  ⟨by decide, by decide,
    infer_error_clean_exit envInferErr baseCfg [] [] (stEmpty baseCfg) 0 (by decide) (by decide)⟩

theorem loopStep_fed (env : Env) (cfg : TaskConfig) (pids : List Nat) (pts : List String)
    (c : Nat) (st : LoopState) (h : st.nPast = c + st.forcedFed + st.sampled) :
    (stateOf (loopStep env cfg pids pts st)).nPast =
      c + (stateOf (loopStep env cfg pids pts st)).forcedFed +
        (stateOf (loopStep env cfg pids pts st)).sampled := by
  unfold loopStep
  cases ha : acquire env cfg pids st with
  | none => simpa [stateOf] using h
  | some p =>
    obtain ⟨out, st1⟩ := p
    dsimp only
    obtain ⟨e1, _, e3, e4, _, _, _, _⟩ := stepTail_spec env cfg pts st1 out
    rw [e1, e3, e4]
    rcases acquire_cases env cfg pids st out st1 ha with hc | hc | hc
    · subst hc; exact h
    · subst hc; dsimp only; omega
    · subst hc; dsimp only; omega

theorem loopStep_delivered (env : Env) (cfg : TaskConfig) (pids : List Nat) (pts : List String)
    (st : LoopState) (h : ∀ x ∈ st.delivered, x ∉ pts) :
    ∀ x ∈ (stateOf (loopStep env cfg pids pts st)).delivered, x ∉ pts := by
  unfold loopStep
  cases ha : acquire env cfg pids st with
  | none => simpa [stateOf] using h
  | some p =>
    obtain ⟨out, st1⟩ := p
    dsimp only
    have hd1 : st1.delivered = st.delivered := by
      rcases acquire_cases env cfg pids st out st1 ha with hc | hc | hc <;> subst hc <;> rfl
    intro x hx
    rcases stepTail_delivered env cfg pts st1 out x hx with hx' | hx'
    · exact h x (hd1 ▸ hx')
    · exact hx'

/-- C2: on every successful `complete_actual`, the final KV-cache length
equals its entry value plus the assembled-prompt length, the bias-prompt
token count, the forced tokens fed, and the sampled tokens (the unbiased
warm-up's inferred tokens `warmupLen` plus the generation loop's sampler
draws `sampled`). Since in this embedding `n_past` is incremented exactly at
the `feed_prompt` / `infer_next_token` sites, the same sum is the total
number of tokens fed into the model during the call. -/
theorem tokens_fed_equals_npast_increment (env : Env) (cfg : TaskConfig) (request : String)
    (fuel : Nat) (r : CompletionResult)
    (hr : complete_actual env cfg request fuel = RunOut.ok r) :
    r.nPastFinal = env.nPast0 + (r.assembledLen + r.biasTokLen + r.forcedFed +
      (r.warmupLen + r.sampled)) := by
  rcases complete_actual_cases env cfg request fuel with hc | ⟨e, n, hc⟩ |
    ⟨aLen, wLen, bLen, st0, hf0, hs0, _, _, hn0, _, _, hc⟩
  · rw [hc] at hr; cases hr
  · rw [hc] at hr; cases hr
  · rw [hc] at hr
    have hP := loopRun_inv env cfg (privateTokenIds env cfg) (privateTokenStrings cfg)
      (fun st => st.nPast = (env.nPast0 + aLen + wLen + bLen) + st.forcedFed + st.sampled)
      (fun st h => loopStep_fed env cfg (privateTokenIds env cfg) (privateTokenStrings cfg)
        (env.nPast0 + aLen + wLen + bLen) st h)
      fuel st0 (by simp [hn0, hf0, hs0])
    cases hl : loopRun env cfg (privateTokenIds env cfg) (privateTokenStrings cfg) fuel st0 with
    | ok stF =>
      rw [hl] at hr hP
      simp only [finishLoop] at hr
      injection hr with hr'
      subst hr'
      simp only [stateOfLoop] at hP
      simp only
      omega
    | err e stF =>
      rw [hl] at hr
      simp only [finishLoop] at hr
      cases hr
    | fuelOut stF =>
      rw [hl] at hr
      simp only [finishLoop] at hr
      cases hr

/-- Witness for C2: a run with a two-token prompt, a two-token warm-up, a
two-token bias prompt and one sampled (EOT) token; the KV-cache grew from 0
to 7 = 2 + 2 + 0 + (2 + 1). -/
theorem tokens_fed_equals_npast_increment_witness :
    ∃ r, complete_actual envWarm cfgWarm "x" 5 = RunOut.ok r ∧
      r.nPastFinal = envWarm.nPast0 + (r.assembledLen + r.biasTokLen + r.forcedFed +
        (r.warmupLen + r.sampled)) := by
  refine ⟨⟨⟨0, 4, 0, 3⟩, 7, [], 2, 2, 2, 0, 1, [1, 2]⟩, by decide, ?_⟩
  exact tokens_fed_equals_npast_increment envWarm cfgWarm "x" 5 _ (by decide)

/-- C8: any fragment delivered to the user callback by `complete_actual` —
on a successful run or before a propagated error — is not equal to any
configured private token: such fragments are suppressed before the callback
is invoked. -/
theorem private_tokens_never_delivered (env : Env) (cfg : TaskConfig) (request : String)
    (fuel : Nat) (s : String)
    (hs : s ∈ deliveredOf (complete_actual env cfg request fuel)) :
    s ∉ privateTokenStrings cfg := by
  rcases complete_actual_cases env cfg request fuel with hc | ⟨e, n, hc⟩ |
    ⟨aLen, wLen, bLen, st0, _, _, hd0, _, _, _, _, hc⟩
  · rw [hc] at hs; simp [deliveredOf] at hs
  · rw [hc] at hs; simp [deliveredOf] at hs
  · rw [hc] at hs
    have hP := loopRun_inv env cfg (privateTokenIds env cfg) (privateTokenStrings cfg)
      (fun st => ∀ x ∈ st.delivered, x ∉ privateTokenStrings cfg)
      (fun st h => loopStep_delivered env cfg (privateTokenIds env cfg)
        (privateTokenStrings cfg) st h)
      fuel st0 (by simp [hd0])
    cases hl : loopRun env cfg (privateTokenIds env cfg) (privateTokenStrings cfg) fuel st0 with
    | ok stF =>
      rw [hl] at hs hP
      simp only [finishLoop, deliveredOf] at hs
      simp only [stateOfLoop] at hP
      exact hP s hs
    | err e stF =>
      rw [hl] at hs hP
      simp only [finishLoop, deliveredOf] at hs
      simp only [stateOfLoop] at hP
      exact hP s hs
    | fuelOut stF =>
      rw [hl] at hs
      simp [finishLoop, deliveredOf] at hs

/-- Witness for C8: a run that delivers the fragment `"a"` while the private
token `"p"` is configured. -/
theorem private_tokens_never_delivered_witness :
    ("a" ∈ deliveredOf (complete_actual envPriv cfgPrivMax0 "hi" 10)) ∧
    "a" ∉ privateTokenStrings cfgPrivMax0 :=
  ⟨by decide, private_tokens_never_delivered envPriv cfgPrivMax0 "hi" 10 "a" (by decide)⟩

theorem maxCheck_max0 (cfg : TaskConfig) (st : LoopState)
    (hb : cfg.hasBiaser = false) (hm : cfg.maxTokens = some 0) :
    maxCheck cfg st = StepOut.brk st := by
  unfold maxCheck
  rw [hb, hm]
  simp

theorem stepTail_max0 (env : Env) (cfg : TaskConfig) (pts : List String) (st : LoopState)
    (out : Nat) (hb : cfg.hasBiaser = false) (hm : cfg.maxTokens = some 0) :
    stepTail env cfg pts st out = StepOut.brk (stateOf (stepTail env cfg pts st out)) ∨
    ∃ e, stepTail env cfg pts st out = StepOut.fail e (stateOf (stepTail env cfg pts st out)) := by
  simp only [stepTail]
  by_cases h1 : out = env.eotTokenId
  · rw [if_pos h1]
    left; rfl
  · rw [if_neg h1]
    by_cases h2 : env.bufComplete (st.buf ++ env.tokenPiece out) = true
    · rw [if_pos h2]
      by_cases h3 : (stopAdvance st.stopStates (st.buf ++ env.tokenPiece out)).1 = true
      · rw [if_pos h3]
        left; rfl
      · rw [if_neg h3]
        by_cases h4 : (st.buf ++ env.tokenPiece out) ∈ pts
        · rw [if_pos h4, maxCheck_max0 cfg _ hb hm]
          left; rfl
        · rw [if_neg h4]
          rcases hcb : env.cb st.cbCalls (st.buf ++ env.tokenPiece out) with e | fb
          · simp only [hcb]
            right; exact ⟨e, rfl⟩
          · rcases fb
            · simp only [hcb, maxCheck_max0 cfg _ hb hm]
              left; rfl
            · simp only [hcb]
              left; rfl
    · rw [if_neg h2, maxCheck_max0 cfg _ hb hm]
      left; rfl

theorem loopStep_max0 (env : Env) (cfg : TaskConfig) (pids : List Nat) (pts : List String)
    (st : LoopState) (hb : cfg.hasBiaser = false) (hm : cfg.maxTokens = some 0) :
    loopStep env cfg pids pts st = StepOut.brk (stateOf (loopStep env cfg pids pts st)) ∨
    ∃ e, loopStep env cfg pids pts st =
      StepOut.fail e (stateOf (loopStep env cfg pids pts st)) := by
  unfold loopStep
  cases ha : acquire env cfg pids st with
  | none => left; rfl
  | some p =>
    obtain ⟨out, st1⟩ := p
    dsimp only
    exact stepTail_max0 env cfg pts st1 out hb hm

theorem loopStep_bounds (env : Env) (cfg : TaskConfig) (pids : List Nat) (pts : List String)
    (st : LoopState) (hb : cfg.hasBiaser = false) :
    (stateOf (loopStep env cfg pids pts st)).stats.predictTokens ≤
      st.stats.predictTokens + 1 ∧
    (stateOf (loopStep env cfg pids pts st)).delivered.length ≤ st.delivered.length + 1 ∧
    (stateOf (loopStep env cfg pids pts st)).forcedFed = st.forcedFed ∧
    (stateOf (loopStep env cfg pids pts st)).sampled ≤ st.sampled + 1 := by
  have hforce : forcedToken (filteredBias env cfg pids st.hist) = none := by
    simp [filteredBias, forcedToken, hb]
  unfold loopStep acquire
  rw [hforce]
  dsimp only
  cases hi : env.inferTok st.inferCalls with
  | none =>
    dsimp only
    simp [stateOf]
  | some o =>
    dsimp only
    obtain ⟨_, e2, e3, e4, _, _, e7, _⟩ := stepTail_spec env cfg pts
      { st with nPast := st.nPast + 1, stats := st.stats.add ⟨0, 0, 0, 1⟩,
                sampled := st.sampled + 1, inferCalls := st.inferCalls + 1 } o
    refine ⟨?_, ?_, ?_, ?_⟩
    · rw [e2]
      simp [InferenceStats.add]
    · simpa using e7
    · rw [e3]
    · rw [e4]

/-- C1 counterexample: with no biaser and `max_tokens = 0`, `complete_actual`
does not exit the generation loop with zero predicted tokens and no
callbacks — the `max_tokens` check sits at the bottom of the loop, so one
token is sampled and one `InferredToken` fragment is delivered before the
loop exits. -/
theorem max_tokens_zero_counterexample :
    ∃ r, complete_actual baseEnv cfgMax0 "r" 10 = RunOut.ok r ∧
      r.stats.predictTokens = 1 ∧ r.delivered = ["a"] :=
  ⟨⟨⟨0, 2, 0, 1⟩, 3, ["a"], 2, 0, 0, 0, 1, [1, 2]⟩, by decide, by decide, by decide⟩

/-- C1 (amended): with no biaser, no bias prompt and `max_tokens = 0`, every
successful `complete_actual` runs the generation loop for exactly one
iteration before the `max_tokens` check fires: at most one token is
predicted, at most one `InferredToken` callback is invoked, and no token is
forced. -/
theorem max_tokens_zero_single_iteration (env : Env) (cfg : TaskConfig) (request : String)
    (fuel : Nat) (r : CompletionResult)
    (hb : cfg.hasBiaser = false) (hm : cfg.maxTokens = some 0) (hp : cfg.biasPrompt = none)
    (hr : complete_actual env cfg request fuel = RunOut.ok r) :
    r.stats.predictTokens ≤ 1 ∧ r.delivered.length ≤ 1 ∧ r.forcedFed = 0 ∧ r.sampled ≤ 1 := by
  rcases complete_actual_cases env cfg request fuel with hc | ⟨e, n, hc⟩ |
    ⟨aLen, wLen, bLen, st0, hf0, hs0, hd0, _, _, hpr0, hbl, hc⟩
  · rw [hc] at hr; cases hr
  · rw [hc] at hr; cases hr
  · rw [hc] at hr
    obtain ⟨hw0, _⟩ := hbl hp
    cases fuel with
    | zero =>
      simp [loopRun, finishLoop] at hr
    | succ n =>
      obtain ⟨b1, b2, b3, b4⟩ :=
        loopStep_bounds env cfg (privateTokenIds env cfg) (privateTokenStrings cfg) st0 hb
      rcases loopStep_max0 env cfg (privateTokenIds env cfg) (privateTokenStrings cfg) st0
          hb hm with hstep | ⟨e, hstep⟩
      · have hrun : loopRun env cfg (privateTokenIds env cfg) (privateTokenStrings cfg)
            (n + 1) st0 =
            LoopOut.ok (stateOf (loopStep env cfg (privateTokenIds env cfg)
              (privateTokenStrings cfg) st0)) := by
          unfold loopRun
          rw [hstep]
          rfl
        rw [hrun] at hr
        simp only [finishLoop] at hr
        injection hr with hr'
        subst hr'
        have hdl : st0.delivered.length = 0 := by rw [hd0]; rfl
        refine ⟨?_, ?_, ?_, ?_⟩ <;> dsimp only <;> omega
      · have hrun : loopRun env cfg (privateTokenIds env cfg) (privateTokenStrings cfg)
            (n + 1) st0 =
            LoopOut.err e (stateOf (loopStep env cfg (privateTokenIds env cfg)
              (privateTokenStrings cfg) st0)) := by
          unfold loopRun
          rw [hstep]
          rfl
        rw [hrun] at hr
        simp only [finishLoop] at hr
        cases hr

/-- Witness for C1 (amended): the run of the C1 counterexample environment
satisfies the amended bounds. -/
theorem max_tokens_zero_single_iteration_witness :
    cfgMax0.hasBiaser = false ∧ cfgMax0.maxTokens = some 0 ∧ cfgMax0.biasPrompt = none ∧
    complete_actual baseEnv cfgMax0 "q" 10 =
      RunOut.ok ⟨⟨0, 2, 0, 1⟩, 3, ["a"], 2, 0, 0, 0, 1, [1, 2]⟩ ∧
    ((⟨⟨0, 2, 0, 1⟩, 3, ["a"], 2, 0, 0, 0, 1, [1, 2]⟩ : CompletionResult).stats.predictTokens ≤ 1 ∧
      (⟨⟨0, 2, 0, 1⟩, 3, ["a"], 2, 0, 0, 0, 1, [1, 2]⟩ : CompletionResult).delivered.length ≤ 1 ∧
      (⟨⟨0, 2, 0, 1⟩, 3, ["a"], 2, 0, 0, 0, 1, [1, 2]⟩ : CompletionResult).forcedFed = 0 ∧
      (⟨⟨0, 2, 0, 1⟩, 3, ["a"], 2, 0, 0, 0, 1, [1, 2]⟩ : CompletionResult).sampled ≤ 1) :=
  ⟨rfl, rfl, rfl, by decide,
    max_tokens_zero_single_iteration baseEnv cfgMax0 "q" 10 _ rfl rfl rfl (by decide)⟩

/-- C3 (bug exhibit): with a bias prompt of three tokens, an assembled
prompt of two tokens and debug tracing off, the prompt tokens actually fed
are `assembledLen + biasTokLen + forcedFed = 5`, but the accumulated stats
record `promptTokens = 4`: the bias-prompt feed step added `tokens.len()` —
the transcript length, i.e. the assembled prompt's length here — instead of
the bias prompt's token count. -/
theorem bias_prompt_stats_bug :
    ∃ r, complete_actual envBiasStats cfgBiasStats "hi" 10 = RunOut.ok r ∧
      r.stats.promptTokens = 4 ∧
      r.assembledLen + r.biasTokLen + r.forcedFed = 5 :=
  ⟨⟨⟨0, 4, 0, 1⟩, 6, [], 2, 0, 3, 0, 1, [1, 2]⟩, by decide, by decide, by decide⟩

/-- C5: when the biaser's bias list, after removal of private-token ids,
contains exactly one entry with strictly positive bias, that token is the
iteration's output token and the sampler is skipped (`inferCalls` and
`sampled` do not change). If it is the end-of-text token the loop exits
without feeding it (the `brk` state changes neither `n_past` nor the
stats); otherwise it is fed into the model via `feed_prompt` (`n_past` and
the prompt-token stat grow by one, `forcedFed` counts it) and it is
recorded (the token count and the biaser advance history grow by it). -/
theorem forced_token_shortcut (env : Env) (cfg : TaskConfig) (pids : List Nat)
    (pts : List String) (st : LoopState) (t : Nat)
    (hf : forcedToken (filteredBias env cfg pids st.hist) = some t) :
    (t = env.eotTokenId →
      loopStep env cfg pids pts st =
        StepOut.brk { st with tokensGenerated := st.tokensGenerated + 1,
                              transcript := st.transcript ++
                                (if env.debugEnabled then [t] else []) }) ∧
    (t ≠ env.eotTokenId →
      (stateOf (loopStep env cfg pids pts st)).nPast = st.nPast + 1 ∧
      (stateOf (loopStep env cfg pids pts st)).stats.promptTokens =
        st.stats.promptTokens + 1 ∧
      (stateOf (loopStep env cfg pids pts st)).forcedFed = st.forcedFed + 1 ∧
      (stateOf (loopStep env cfg pids pts st)).sampled = st.sampled ∧
      (stateOf (loopStep env cfg pids pts st)).inferCalls = st.inferCalls ∧
      (stateOf (loopStep env cfg pids pts st)).stats.predictTokens =
        st.stats.predictTokens ∧
      (stateOf (loopStep env cfg pids pts st)).hist = st.hist ++ [t] ∧
      (stateOf (loopStep env cfg pids pts st)).tokensGenerated =
        st.tokensGenerated + 1) := by
  constructor
  · intro he
    unfold loopStep acquire
    rw [hf]
    dsimp only
    rw [if_pos he]
    dsimp only
    simp only [stepTail]
    rw [if_pos he]
  · intro he
    unfold loopStep acquire
    rw [hf]
    dsimp only
    rw [if_neg he]
    dsimp only
    obtain ⟨e1, e2, e3, e4, e5, e6, _, e8⟩ := stepTail_spec env cfg pts
      { st with nPast := st.nPast + 1, stats := st.stats.add ⟨0, 1, 0, 0⟩,
                forcedFed := st.forcedFed + 1 } t
    refine ⟨?_, ?_, ?_, ?_, ?_, ?_, ?_, ?_⟩
    · rw [e1]
    · rw [e2]
      simp [InferenceStats.add]
    · rw [e3]
    · rw [e4]
    · rw [e5]
    · rw [e2]
      simp [InferenceStats.add]
    · rw [e8 he]
    · rw [e6]

/-- Witness for C5: a biaser admitting exactly token 4 with bias +1 forces
token 4; the KV-cache grows by one while the sampler is never consulted. -/
theorem forced_token_shortcut_witness :
    forcedToken (filteredBias envForced cfgBiased [] (stEmpty cfgBiased).hist) = some 4 ∧
    ((4 : Nat) ≠ envForced.eotTokenId) ∧
    (stateOf (loopStep envForced cfgBiased [] [] (stEmpty cfgBiased))).nPast =
      (stEmpty cfgBiased).nPast + 1 ∧
    (stateOf (loopStep envForced cfgBiased [] [] (stEmpty cfgBiased))).forcedFed =
      (stEmpty cfgBiased).forcedFed + 1 ∧
    (stateOf (loopStep envForced cfgBiased [] [] (stEmpty cfgBiased))).inferCalls =
      (stEmpty cfgBiased).inferCalls ∧
    (stateOf (loopStep envForced cfgBiased [] [] (stEmpty cfgBiased))).hist =
      (stEmpty cfgBiased).hist ++ [4] := by
  have h := (forced_token_shortcut envForced cfgBiased [] [] (stEmpty cfgBiased) 4
    (by decide)).2 (by decide)
  exact ⟨by decide, by decide, h.1, h.2.2.1, h.2.2.2.2.1, h.2.2.2.2.2.2.1⟩

end Poly
